import Mathlib

/-!
Shallow embedding of the statsgod metrics daemon (statsgod.go) and proofs
about it.

Modelling conventions:
* Go `float32`/`float64` values are modelled as exact rationals `ℚ`;
  the claims under scrutiny only involve arithmetic that is exact at the
  concrete inputs considered.
* The Go map `map[string]Metric` is modelled as an association list
  `List (String × Metric)`; Go map iteration order is irrelevant to the
  properties proved here.
* Side-effecting emission to Graphite is modelled by returning the list of
  emitted data points together with a flag that is `false` exactly when the
  Go code panics (out-of-range slice index) after emitting the points
  produced so far.
-/

/-- Metric mirrors the Go struct `Metric` (statsgod.go lines 53-61).
`totalHits` is a count (Go `int`, never negative here), `lastValue` and
`allValues` hold the float32 data as exact rationals. -/
structure Metric where
  key : String
  metricType : String
  totalHits : Nat
  lastValue : ℚ
  allValues : List ℚ
  flushTime : Int
  lastFlushed : Int
  deriving DecidableEq

/-- The zero value of the Go struct `Metric`, produced by a lookup miss on
the Go map. -/
def Metric.zero : Metric :=
  { key := "", metricType := "", totalHits := 0, lastValue := 0,
    allValues := [], flushTime := 0, lastFlushed := 0 }

/-- MetricStore models the `metrics map[string]Metric` field of the Go
`MetricStore` as an association list. The `sync.RWMutex` disappears in this
sequential model. -/
abbrev MetricStore := List (String × Metric)

/-- NewMetricStore mirrors the Go constructor: an empty map. -/
def NewMetricStore : MetricStore := []

/-- Get mirrors `MetricStore.Get` / the map read in `Set`: the first entry
with the given key. The Go map read returns the zero `Metric` plus an
`ok` flag on a miss; `Option` captures the flag. -/
def MetricStore.Get (s : MetricStore) (key : String) : Option Metric :=
  match s with
  | [] => none
  | kv :: rest => if kv.1 = key then some kv.2 else MetricStore.Get rest key

/-- Set mirrors `MetricStore.Set` (statsgod.go lines 374-410): create the
metric on first write, otherwise bump `totalHits` and update `lastValue`
according to the incoming metric type; in both cases append the value to
`allValues` and write the record back.  (The Go function also returns the
constant `false`, which every caller ignores; it is omitted here.) -/
def MetricStore.Set (s : MetricStore) (key metricType : String) (val : ℚ) : MetricStore :=
  let lookupRes := s.Get key
  let m0 := lookupRes.getD Metric.zero
  let existingMetric := lookupRes.isSome
  let m1 :=
    if existingMetric then
      { m0 with
        totalHits := m0.totalHits + 1,
        lastValue :=
          if metricType = "gauge" then val
          else if metricType = "counter" then m0.lastValue + val
          else if metricType = "timer" then val
          else m0.lastValue }
    else
      { m0 with key := key, totalHits := 1, lastValue := val, metricType := metricType }
  let m2 := { m1 with allValues := m1.allValues ++ [val] }
  if existingMetric then s.map (fun kv => if kv.1 = key then (key, m2) else kv)
  else s ++ [(key, m2)]

/-- deletedKeys collects the keys deleted by one pass of
`handleGraphiteQueue` over one flush tick: every non-gauge metric that was
sent down the pipeline is deleted from the store by its `key` field. -/
def deletedKeys (s : MetricStore) : List String :=
  ((s.map Prod.snd).filter (fun m => m.metricType ≠ "gauge")).map Metric.key

/-- flushCycle is the net effect on the store of one flush tick: the loop
in `flushMetrics` (lines 256-260) sends a copy of every metric down
`graphitePipeline` (mutating only the copy's `flushTime`), and
`handleGraphiteQueue` (lines 265-273) deletes every non-gauge metric from
the store by its `key` field.  Gauge entries are left completely
untouched. -/
def flushCycle (s : MetricStore) : MetricStore :=
  s.filter (fun kv => !((deletedKeys s).contains kv.1))

/-- Reachable states of the store: empty at startup, then closed under
`Set` (ingestion) and `flushCycle` (the periodic flush). -/
inductive Reachable : MetricStore → Prop
  | init : Reachable NewMetricStore
  | step (s : MetricStore) (key metricType : String) (val : ℚ) :
      Reachable s → Reachable (s.Set key metricType val)
  | flush (s : MetricStore) : Reachable s → Reachable (flushCycle s)

/-- Well-formedness of a store: every entry's `key` field equals its map
key, and map keys occur at most once (true of any Go map). -/
def MetricStore.WF (s : MetricStore) : Prop :=
  (∀ kv ∈ s, (kv : String × Metric).2.key = kv.1) ∧ (s.map Prod.fst).Nodup

instance (s : MetricStore) : Decidable s.WF :=
  inferInstanceAs (Decidable (_ ∧ _))

/-!
Protocol parsing and the per-connection session loop (`handleRequest`,
statsgod.go lines 202-242).

The Go code matches each received buffer against the regular expression
`(.*)\:(.*)\|(.*)`.  In RE2 semantics `.` does not match a newline, the
match starts at the leftmost feasible position and each `(.*)` is greedy.
Concretely: the match lives inside the first newline-delimited segment
that contains a `:` later followed by a `|`; group 1 ends at the last
such `:`, group 2 ends at the last `|` after it, group 3 is the rest of
the segment.
-/

/-- splitOnNewline splits a character list at every newline (`\x0a`),
mirroring the segments inside which `.` can match. -/
def splitOnNewline : List Char → List (List Char)
  | [] => [[]]
  | c :: rest =>
    let r := splitOnNewline rest
    if c = '\x0a' then [] :: r
    else (c :: r.headD []) :: r.tail

/-- splitAtLastGoodColon splits a segment at the last colon that still has
a pipe somewhere after it (the greedy choice for regex group 1), returning
(group1, rest-after-colon). -/
def splitAtLastGoodColon : List Char → Option (List Char × List Char)
  | [] => none
  | c :: rest =>
    match splitAtLastGoodColon rest with
    | some (l, r) => some (c :: l, r)
    | none => if c = ':' ∧ rest.contains '|' then some ([], rest) else none

/-- splitAtLastPipe splits at the last pipe (the greedy choice for regex
group 2), returning (group2, group3). -/
def splitAtLastPipe : List Char → Option (List Char × List Char)
  | [] => none
  | c :: rest =>
    match splitAtLastPipe rest with
    | some (l, r) => some (c :: l, r)
    | none => if c = '|' then some ([], rest) else none

/-- matchSegment extracts the three regex groups from one newline-free
segment, or fails when the segment has no colon followed by a pipe. -/
def matchSegment (cs : List Char) : Option (String × String × String) :=
  match splitAtLastGoodColon cs with
  | none => none
  | some (g1, rest) =>
    match splitAtLastPipe rest with
    | none => none
    | some (g2, g3) => some (String.mk g1, String.mk g2, String.mk g3)

/-- matchLine models `msg.FindAllStringSubmatch(string(buf), 1)`: the
first newline-delimited segment of the buffer that matches the pattern
yields the three groups. -/
def matchLine (s : String) : Option (String × String × String) :=
  (splitOnNewline s.toList).findSome? matchSegment

/-- trimEnds drops characters satisfying `p` from both ends of a list. -/
def trimEnds (p : Char → Bool) (cs : List Char) : List Char :=
  ((cs.dropWhile p).reverse.dropWhile p).reverse

/-- trimTypeToken mirrors `strings.TrimSpace` followed by
`strings.Trim(·, "\x00")` applied to the type token (lines 221-222). -/
def trimTypeToken (s : String) : String :=
  String.mk (trimEnds (fun c => c = '\x00') (trimEnds Char.isWhitespace s.toList))

/-- shortTypeToLong mirrors the Go function of the same name (lines
430-440); the Go version returns `("unknown", error)` on an unknown
token, modelled by `none`. -/
def shortTypeToLong (short : String) : Option String :=
  if short = "c" then some "counter"
  else if short = "g" then some "gauge"
  else if short = "ms" then some "timer"
  else none

/-- digitsVal reads a digit string as a natural number. -/
def digitsVal (l : List Char) : Nat :=
  l.foldl (fun a c => a * 10 + (c.toNat - '0'.toNat)) 0

/-- parseExponentPart parses the signed digit string after `e`/`E`. -/
def parseExponentPart (cs : List Char) : Option Int :=
  match cs with
  | '-' :: ds => if ds ≠ [] ∧ ds.all Char.isDigit then some (-(digitsVal ds : Int)) else none
  | '+' :: ds => if ds ≠ [] ∧ ds.all Char.isDigit then some (digitsVal ds : Int) else none
  | ds => if ds ≠ [] ∧ ds.all Char.isDigit then some (digitsVal ds : Int) else none

/-- applyExponent multiplies by the parsed power of ten. -/
def applyExponent (q : ℚ) (e : Int) : ℚ :=
  if 0 ≤ e then q * (10 : ℚ) ^ e.toNat else q / (10 : ℚ) ^ (-e).toNat

/-- Modelled from the Go standard library: `strconv.ParseFloat(val, 32)`
accepting the decimal syntax `[+-]digits[.digits][(e|E)[+-]digits]` with
at least one mantissa digit, read here as an exact rational (float32
rounding, `Inf`/`NaN` spellings and hexadecimal floats are out of scope).
On failure Go returns the value `0` together with an error; the error
case is `none` here. -/
def parseFloat (s : String) : Option ℚ :=
  let cs0 := s.toList
  let signVal : ℚ := if cs0.headD ' ' = '-' then -1 else 1
  let cs := if cs0.headD ' ' = '-' ∨ cs0.headD ' ' = '+' then cs0.tail else cs0
  let intPart := cs.takeWhile Char.isDigit
  let rest := cs.dropWhile Char.isDigit
  let mantissa :=
    match rest with
    | '.' :: r2 =>
      let fracPart := r2.takeWhile Char.isDigit
      let r3 := r2.dropWhile Char.isDigit
      if intPart = [] ∧ fracPart = [] then none
      else some ((digitsVal intPart : ℚ) + (digitsVal fracPart : ℚ) / (10 : ℚ) ^ fracPart.length, r3)
    | _ => if intPart = [] then none else some ((digitsVal intPart : ℚ), rest)
  match mantissa with
  | none => none
  | some (mant, r) =>
    match r with
    | [] => some (signVal * mant)
    | e :: r2 =>
      if e = 'e' ∨ e = 'E' then
        match parseExponentPart r2 with
        | some ex => some (signVal * applyExponent mant ex)
        | none => none
      else none

/-- handleRequest models the session loop (lines 202-242) on the list of
buffers successfully delivered by `conn.Read`; the list ending models the
transport erroring (the loop then returns).  Per iteration: a regex miss
logs a warning and RETURNS (the second component is the unread input at
that point); an unknown metric type logs a warning and CONTINUES; a value
that fails to parse is replaced by Go's zero result `0` (the
`checkError(err, "Converting Value", false)` call does nothing), and
`Set` is called unconditionally. -/
def handleRequest : List String → MetricStore → MetricStore × List String
  | [], store => (store, [])
  | line :: rest, store =>
    match matchLine line with
    | none => (store, rest)
    | some (metric, val, tmpMetricType) =>
      match shortTypeToLong (trimTypeToken tmpMetricType) with
      | none => handleRequest rest store
      | some metricType =>
        handleRequest rest (store.Set metric metricType ((parseFloat val).getD 0))

/-!
The statistics engine: `sendToGraphite` (statsgod.go lines 275-357).
-/

/-- GraphitePoint is one data point written by
`sendSingleMetricToGraphite`: key, value and the flush timestamp (the
same timestamp is passed to every point of one metric). -/
structure GraphitePoint where
  key : String
  value : ℚ
  time : Int
  deriving DecidableEq

/-- thresholdIndex mirrors line 338:
`int(math.Floor((((100 - percentile) / 100) * totalHits) + 0.5))`,
with the float64 arithmetic read as exact rational arithmetic. -/
def thresholdIndex (percentile : Int) (totalHits : Nat) : Int :=
  Int.floor ((((100 : ℚ) - (percentile : ℚ)) / 100) * (totalHits : ℚ) + 1/2)

/-- numInThreshold mirrors line 339: `totalHits - thresholdIndex`.  The
code applies no clamping to this quantity. -/
def numInThreshold (percentile : Int) (totalHits : Nat) : Int :=
  (totalHits : Int) - thresholdIndex percentile totalHits

/-- sortedSamples is `sort.Sort(ByFloat32(m.allValues))` (line 310):
the samples sorted ascending. -/
def sortedSamples (m : Metric) : List ℚ :=
  m.allValues.insertionSort (· ≤ ·)

/-- cumulativeFrom accumulates a running sum starting from `acc`. -/
def cumulativeFrom (acc : ℚ) : List ℚ → List ℚ
  | [] => []
  | v :: rest => (acc + v) :: cumulativeFrom (acc + v) rest

/-- cumulativeValues mirrors the loop at lines 317-325 building
`cumulativeValues`: entry 0 is the first (smallest) sorted sample and
entry `i` is entry `i-1` plus sorted sample `i`. -/
def cumulativeValues (l : List ℚ) : List ℚ :=
  cumulativeFrom 0 l

/-- sendToGraphite mirrors the Go function (lines 275-357) as a pure
function from the metric (plus the configured percentile and the flush
interval in seconds) to the emitted points.  The Bool is `true` when the
function runs to completion and `false` when the Go code panics on an
out-of-range slice index, in which case the first component still holds
the points emitted before the panic.  The two indexing sites
(`m.allValues[numInThreshold-1]` and `cumulativeValues[numInThreshold-1]`)
use the same index, and `cumulativeValues` has the same length as the
sorted sample list (lemma `cumulativeValues_length`), so one bounds test
covers both. -/
def sendToGraphite (percentile : Int) (flushSeconds : ℚ) (m : Metric) :
    List GraphitePoint × Bool :=
  let t := m.flushTime
  let branchPts : List GraphitePoint :=
    if m.metricType = "gauge" then
      [{ key := "stats.gauges." ++ m.key ++ ".avg_value", value := m.lastValue, time := t }]
    else if m.metricType = "counter" then
      [{ key := "stats." ++ m.key, value := m.lastValue / flushSeconds, time := t },
       { key := "stats_counts." ++ m.key, value := m.lastValue, time := t }]
    else []
  let pts := branchPts ++ [{ key := m.key, value := m.lastValue, time := t }]
  if m.metricType ≠ "timer" then (pts, true)
  else
    let sortedValues := sortedSamples m
    if sortedValues.length = 0 then (pts, false)
    else
      let minValue := sortedValues.headD 0
      let maxValue := sortedValues.getLastD 0
      let sum := sortedValues.sum
      let cumulativeVals := cumulativeValues sortedValues
      let avgValue := sum / (m.totalHits : ℚ)
      let basePts := pts ++
        [{ key := "stats.timers." ++ m.key ++ ".avg_value", value := avgValue, time := t },
         { key := "stats.timers." ++ m.key ++ ".max_value", value := maxValue, time := t },
         { key := "stats.timers." ++ m.key ++ ".min_value", value := minValue, time := t }]
      let numInThresh := numInThreshold percentile m.totalHits
      let idx := numInThresh - 1
      if 0 ≤ idx ∧ idx.toNat < sortedValues.length then
        let maxAtThreshold := sortedValues.getD idx.toNat 0
        let cumAtThreshold := cumulativeVals.getD idx.toNat 0
        let meanAtPercentile := cumAtThreshold / (numInThresh : ℚ)
        (basePts ++
          [{ key := "stats.timers." ++ m.key ++ ".mean_" ++ toString percentile,
             value := meanAtPercentile, time := t },
           { key := "stats.timers." ++ m.key ++ ".upper_" ++ toString percentile,
             value := maxAtThreshold, time := t },
           { key := "stats.timers." ++ m.key ++ ".sum_" ++ toString percentile,
             value := cumAtThreshold, time := t }], true)
      else (basePts, false)

/-- exGauge is a concrete gauge metric used as test input. -/
def exGauge : Metric :=
  { key := "g", metricType := "gauge", totalHits := 1, lastValue := 7,
    allValues := [7], flushTime := 0, lastFlushed := 0 }

/-- exTimer1 is a concrete one-sample timer metric used as test input. -/
def exTimer1 : Metric :=
  { key := "t1", metricType := "timer", totalHits := 1, lastValue := 5,
    allValues := [5], flushTime := 0, lastFlushed := 0 }

/-- exTimer is the five-sample timer metric of the spec's worked example. -/
def exTimer : Metric :=
  { key := "t", metricType := "timer", totalHits := 5, lastValue := 5,
    allValues := [1, 2, 3, 4, 5], flushTime := 0, lastFlushed := 0 }

/-!
Helper lemmas about the store operations.
-/

lemma Get_some_mem {s : MetricStore} {k : String} {m : Metric}
    (h : s.Get k = some m) : (k, m) ∈ s := by
  induction s with
  | nil => simp [MetricStore.Get] at h
  | cons kv rest IH =>
    obtain ⟨a, b⟩ := kv
    by_cases hk : a = k
    · subst hk
      simp only [MetricStore.Get, if_pos] at h
      cases h
      exact List.mem_cons_self _ _
    · simp only [MetricStore.Get, hk, if_neg, if_false] at h
      exact List.mem_cons_of_mem _ (IH h)

lemma Get_eq_none_iff {s : MetricStore} {k : String} :
    s.Get k = none ↔ ∀ kv ∈ s, (kv : String × Metric).1 ≠ k := by
  induction s with
  | nil => simp [MetricStore.Get]
  | cons kv rest IH =>
    by_cases hk : kv.1 = k
    · simp [MetricStore.Get, hk]
    · simp [MetricStore.Get, hk, IH]

lemma Get_map_replace_self {s : MetricStore} {key : String} {m : Metric}
    (m2 : Metric) (h : s.Get key = some m) :
    MetricStore.Get (s.map (fun kv => if kv.1 = key then (key, m2) else kv)) key =
      some m2 := by
  induction s with
  | nil => simp [MetricStore.Get] at h
  | cons kv rest IH =>
    by_cases hk : kv.1 = key
    · simp [MetricStore.Get, hk]
    · simp only [MetricStore.Get, hk, if_neg, if_false] at h
      simp [MetricStore.Get, hk, IH h]

lemma Get_append_single_of_none {s : MetricStore} {key : String}
    (m2 : Metric) (h : s.Get key = none) :
    MetricStore.Get (s ++ [(key, m2)]) key = some m2 := by
  induction s with
  | nil => simp [MetricStore.Get]
  | cons kv rest IH =>
    by_cases hk : kv.1 = key
    · simp [MetricStore.Get, hk] at h
    · simp only [MetricStore.Get, hk, if_neg, if_false] at h
      simp [MetricStore.Get, hk, IH h]

/-- Set on an unseen key: the created record, exactly as built by the
`!existingMetric` branch plus the final append. -/
lemma Set_Get_none {s : MetricStore} {key : String} (kind : String) (v : ℚ)
    (h : s.Get key = none) :
    (s.Set key kind v).Get key =
      some { key := key, metricType := kind, totalHits := 1, lastValue := v,
             allValues := [v], flushTime := 0, lastFlushed := 0 } := by
  unfold MetricStore.Set
  rw [h]
  simpa [Metric.zero] using Get_append_single_of_none _ h

/-- Set on an existing key: the updated record, exactly as built by the
`existingMetric` branch plus the final append. -/
lemma Set_Get_some {s : MetricStore} {key : String} {m : Metric} (kind : String) (v : ℚ)
    (h : s.Get key = some m) :
    (s.Set key kind v).Get key =
      some { m with
        totalHits := m.totalHits + 1,
        allValues := m.allValues ++ [v],
        lastValue :=
          if kind = "gauge" then v
          else if kind = "counter" then m.lastValue + v
          else if kind = "timer" then v
          else m.lastValue } := by
  unfold MetricStore.Set
  rw [h]
  simpa using Get_map_replace_self _ h

/-- Lookup after filtering by a predicate on the map key alone. -/
lemma Get_filter_key (s : MetricStore) (d : List String) (k : String) :
    MetricStore.Get (s.filter (fun kv => !(d.contains kv.1))) k =
      if d.contains k then none else s.Get k := by
  induction s with
  | nil => simp [MetricStore.Get]
  | cons kv rest IH =>
    by_cases hk : kv.1 = k
    · by_cases hd : k ∈ d
      · rw [List.filter_cons_of_neg (by simp [List.contains, hk, hd])]
        rw [IH]
        simp [List.contains, hd]
      · rw [List.filter_cons_of_pos (by simp [List.contains, hk, hd])]
        simp [List.contains, MetricStore.Get, hk, hd]
    · by_cases hkeep : kv.1 ∈ d
      · rw [List.filter_cons_of_neg (by simp [List.contains, hkeep])]
        rw [IH]
        simp [MetricStore.Get, hk]
      · rw [List.filter_cons_of_pos (by simp [List.contains, hkeep])]
        simp only [MetricStore.Get, hk, if_neg, if_false]
        exact IH

lemma Get_flushCycle (s : MetricStore) (k : String) :
    MetricStore.Get (flushCycle s) k =
      if (deletedKeys s).contains k then none else s.Get k :=
  Get_filter_key s (deletedKeys s) k

/-- The key of every entry created or replaced by `Set` matches its map
key, so `Set` preserves well-formedness. -/
lemma WF_Set {s : MetricStore} (key kind : String) (v : ℚ) (h : s.WF) :
    (s.Set key kind v).WF := by
  obtain ⟨hkeys, hnodup⟩ := h
  cases hG : s.Get key with
  | none =>
    unfold MetricStore.Set
    rw [hG]
    simp only [Option.getD_none, Option.isSome_none, Bool.false_eq_true, if_false,
      Metric.zero]
    constructor
    · intro kv hkv
      rcases List.mem_append.mp hkv with hold | hnew
      · exact hkeys kv hold
      · simp only [List.mem_singleton] at hnew
        subst hnew
        rfl
    · rw [List.map_append]
      apply List.Nodup.append hnodup (by simp)
      simp only [List.map_cons, List.map_nil, List.disjoint_singleton]
      intro hmem
      simp only [List.mem_map] at hmem
      obtain ⟨kv, hkv, hfst⟩ := hmem
      exact (Get_eq_none_iff.mp hG kv hkv) hfst
  | some m0 =>
    have hkey0 : m0.key = key := hkeys (key, m0) (Get_some_mem hG)
    unfold MetricStore.Set
    rw [hG]
    simp only [Option.getD_some, Option.isSome_some, if_pos, if_true]
    constructor
    · intro kv hkv
      simp only [List.mem_map] at hkv
      obtain ⟨kv0, hkv0, rfl⟩ := hkv
      by_cases hk : kv0.1 = key
      · simp [hk, hkey0]
      · simp only [hk, if_neg, if_false]
        exact hkeys kv0 hkv0
    · have : (s.map (fun kv => if kv.1 = key then
          (key, { m0 with
            totalHits := m0.totalHits + 1,
            lastValue :=
              if kind = "gauge" then v
              else if kind = "counter" then m0.lastValue + v
              else if kind = "timer" then v
              else m0.lastValue,
            allValues := m0.allValues ++ [v] })
          else kv)).map Prod.fst = s.map Prod.fst := by
        rw [List.map_map]
        apply List.map_congr_left
        intro kv _
        by_cases hk : kv.1 = key
        · simp [hk]
        · simp [hk]
      rw [this]
      exact hnodup

lemma WF_flushCycle {s : MetricStore} (h : s.WF) : (flushCycle s).WF := by
  obtain ⟨hkeys, hnodup⟩ := h
  constructor
  · intro kv hkv
    exact hkeys kv (List.mem_of_mem_filter hkv)
  · exact List.Nodup.sublist (List.Sublist.map _ (List.filter_sublist s)) hnodup

lemma reachable_WF {s : MetricStore} (h : Reachable s) : s.WF := by
  induction h with
  | init => exact ⟨by simp [NewMetricStore], by simp [NewMetricStore]⟩
  | step s key ty v _ IH => exact WF_Set key ty v IH
  | flush s _ IH => exact WF_flushCycle IH

/-- Set preserves the hit-count/sample-length equality of every entry. -/
lemma hits_len_Set {s : MetricStore} (key kind : String) (v : ℚ)
    (IH : ∀ kv ∈ s, (kv : String × Metric).2.totalHits = kv.2.allValues.length) :
    ∀ kv ∈ s.Set key kind v, (kv : String × Metric).2.totalHits = kv.2.allValues.length := by
  intro kv hkv
  cases hG : s.Get key with
  | none =>
    unfold MetricStore.Set at hkv
    rw [hG] at hkv
    simp only [Option.getD_none, Option.isSome_none, Bool.false_eq_true, if_false,
      Metric.zero] at hkv
    rcases List.mem_append.mp hkv with hold | hnew
    · exact IH kv hold
    · simp only [List.mem_singleton] at hnew
      subst hnew
      rfl
  | some m0 =>
    have h0 : m0.totalHits = m0.allValues.length := IH (key, m0) (Get_some_mem hG)
    unfold MetricStore.Set at hkv
    rw [hG] at hkv
    simp only [Option.getD_some, Option.isSome_some, if_pos, if_true] at hkv
    simp only [List.mem_map] at hkv
    obtain ⟨kv0, hkv0, rfl⟩ := hkv
    by_cases hk : kv0.1 = key
    · simp [hk, h0]
    · simp only [hk, if_neg, if_false]
      exact IH kv0 hkv0

lemma reachable_hits_len {s : MetricStore} (h : Reachable s) :
    ∀ kv ∈ s, (kv : String × Metric).2.totalHits = kv.2.allValues.length := by
  induction h with
  | init => simp [NewMetricStore]
  | step s key ty v _ IH => exact hits_len_Set key ty v IH
  | flush s _ IH => exact fun kv hkv => IH kv (List.mem_of_mem_filter hkv)

/-!
Helper lemmas about sorting, cumulative sums and the percentile index.
-/

lemma sortedSamples_perm (m : Metric) : (sortedSamples m).Perm m.allValues :=
  List.perm_insertionSort _ _

lemma sortedSamples_sorted (m : Metric) : (sortedSamples m).Sorted (· ≤ ·) :=
  List.sorted_insertionSort _ _

lemma sortedSamples_length (m : Metric) :
    (sortedSamples m).length = m.allValues.length :=
  (sortedSamples_perm m).length_eq

lemma sortedSamples_sum (m : Metric) : (sortedSamples m).sum = m.allValues.sum :=
  (sortedSamples_perm m).sum_eq

lemma headD_mem {l : List ℚ} (h : l ≠ []) : l.headD 0 ∈ l := by
  cases l with
  | nil => exact absurd rfl h
  | cons a t => exact List.mem_cons_self _ _

lemma headD_le_of_sorted {l : List ℚ} (hs : l.Sorted (· ≤ ·)) :
    ∀ x ∈ l, l.headD 0 ≤ x := by
  cases l with
  | nil => intro x hx; simp at hx
  | cons a t =>
    intro x hx
    rcases List.mem_cons.mp hx with rfl | hx
    · exact le_refl _
    · exact (List.sorted_cons.mp hs).1 x hx

lemma getLastD_mem {l : List ℚ} (h : l ≠ []) : l.getLastD 0 ∈ l := by
  induction l with
  | nil => exact absurd rfl h
  | cons a t IH =>
    cases t with
    | nil => simp
    | cons b t2 =>
      have : (a :: b :: t2).getLastD 0 = (b :: t2).getLastD 0 := by
        simp [List.getLastD_eq_getLast?]
      rw [this]
      exact List.mem_cons_of_mem _ (IH (by simp))

lemma le_getLastD_of_sorted {l : List ℚ} (hs : l.Sorted (· ≤ ·)) :
    ∀ x ∈ l, x ≤ l.getLastD 0 := by
  induction l with
  | nil => intro x hx; simp at hx
  | cons a t IH =>
    intro x hx
    cases t with
    | nil =>
      simp only [List.mem_singleton] at hx
      subst hx
      simp
    | cons b t2 =>
      have hlast : (a :: b :: t2).getLastD 0 = (b :: t2).getLastD 0 := by
        simp [List.getLastD_eq_getLast?]
      obtain ⟨hall, hrest⟩ := List.sorted_cons.mp hs
      rw [hlast]
      rcases List.mem_cons.mp hx with rfl | hx2
      · exact le_trans (hall _ (getLastD_mem (by simp))) (le_refl _)
      · exact IH hrest x hx2

lemma cumulativeFrom_length (acc : ℚ) (l : List ℚ) :
    (cumulativeFrom acc l).length = l.length := by
  induction l generalizing acc with
  | nil => rfl
  | cons v rest IH => simp [cumulativeFrom, IH]

lemma cumulativeValues_length (l : List ℚ) :
    (cumulativeValues l).length = l.length :=
  cumulativeFrom_length 0 l

lemma cumulativeFrom_getD (acc : ℚ) (l : List ℚ) (i : Nat) (h : i < l.length) :
    (cumulativeFrom acc l).getD i 0 = acc + (l.take (i + 1)).sum := by
  induction l generalizing acc i with
  | nil => simp at h
  | cons v rest IH =>
    cases i with
    | zero => simp [cumulativeFrom]
    | succ j =>
      simp only [List.length_cons, Nat.succ_lt_succ_iff] at h
      simp only [cumulativeFrom, List.getD_cons_succ, List.take_succ_cons, List.sum_cons]
      rw [IH (acc + v) j h]
      ring

lemma cumulativeValues_getD (l : List ℚ) (i : Nat) (h : i < l.length) :
    (cumulativeValues l).getD i 0 = (l.take (i + 1)).sum := by
  rw [cumulativeValues, cumulativeFrom_getD 0 l i h, zero_add]

/-- Bounds for the unclamped `numInThreshold`: as soon as
`50 < percentile * totalHits` (in particular always for the default
percentile 90 and a non-empty sample set), the Go index computation lands
inside the slice. -/
lemma numInThreshold_bounds (P : Int) (n : Nat) (h1 : P ≤ 100)
    (h2 : 50 < P * (n : Int)) :
    1 ≤ numInThreshold P n ∧ numInThreshold P n ≤ (n : Int) := by
  unfold numInThreshold thresholdIndex
  have hq1 : (P : ℚ) ≤ 100 := by exact_mod_cast h1
  have hq2 : (50 : ℚ) < (P : ℚ) * (n : ℚ) := by exact_mod_cast h2
  have hexp : ((100 : ℚ) - (P : ℚ)) / 100 * (n : ℚ) = (n : ℚ) - (P : ℚ) * (n : ℚ) / 100 := by
    ring
  constructor
  · have hlt : Int.floor (((100 : ℚ) - (P : ℚ)) / 100 * (n : ℚ) + 1 / 2) < (n : Int) := by
      rw [Int.floor_lt]
      push_cast
      rw [hexp]
      linarith
    omega
  · have hnonneg : (0 : Int) ≤ Int.floor (((100 : ℚ) - (P : ℚ)) / 100 * (n : ℚ) + 1 / 2) := by
      rw [Int.le_floor]
      push_cast
      rw [hexp]
      nlinarith [Nat.cast_nonneg (α := ℚ) n]
    omega

/-- Full evaluation of `sendToGraphite` on a timer metric whose percentile
index computation lands in bounds: the exact list of emitted points, in
emission order, and no panic. -/
lemma sendToGraphite_timer (P : Int) (fs : ℚ) (m : Metric)
    (hty : m.metricType = "timer")
    (hne : (sortedSamples m).length ≠ 0)
    (h1 : 1 ≤ numInThreshold P m.totalHits)
    (h2 : (numInThreshold P m.totalHits - 1).toNat < (sortedSamples m).length) :
    sendToGraphite P fs m =
      ([{ key := m.key, value := m.lastValue, time := m.flushTime },
        { key := "stats.timers." ++ m.key ++ ".avg_value",
          value := (sortedSamples m).sum / (m.totalHits : ℚ), time := m.flushTime },
        { key := "stats.timers." ++ m.key ++ ".max_value",
          value := (sortedSamples m).getLastD 0, time := m.flushTime },
        { key := "stats.timers." ++ m.key ++ ".min_value",
          value := (sortedSamples m).headD 0, time := m.flushTime },
        { key := "stats.timers." ++ m.key ++ ".mean_" ++ toString P,
          value := (cumulativeValues (sortedSamples m)).getD
              (numInThreshold P m.totalHits - 1).toNat 0 /
            ((numInThreshold P m.totalHits : Int) : ℚ), time := m.flushTime },
        { key := "stats.timers." ++ m.key ++ ".upper_" ++ toString P,
          value := (sortedSamples m).getD (numInThreshold P m.totalHits - 1).toNat 0,
          time := m.flushTime },
        { key := "stats.timers." ++ m.key ++ ".sum_" ++ toString P,
          value := (cumulativeValues (sortedSamples m)).getD
              (numInThreshold P m.totalHits - 1).toNat 0, time := m.flushTime }], true) := by
  have hidx : 0 ≤ numInThreshold P m.totalHits - 1 := by omega
  simp only [sendToGraphite, hty]
  rw [if_neg (by decide : ¬ (("timer" : String) = "gauge"))]
  rw [if_neg (by decide : ¬ (("timer" : String) = "counter"))]
  rw [if_neg (by decide : ¬ (("timer" : String) ≠ "timer"))]
  rw [if_neg hne]
  rw [if_pos ⟨hidx, h2⟩]
  simp

/-- When the percentile index computation lands below the slice
(`numInThreshold ≤ 0`), the Go code panics with an out-of-range index
after emitting the generic, average, max and min points. -/
lemma sendToGraphite_timer_outOfRange (P : Int) (fs : ℚ) (m : Metric)
    (hty : m.metricType = "timer")
    (hne : (sortedSamples m).length ≠ 0)
    (hbad : numInThreshold P m.totalHits - 1 < 0) :
    (sendToGraphite P fs m).2 = false := by
  simp only [sendToGraphite, hty]
  rw [if_neg (by decide : ¬ (("timer" : String) = "gauge"))]
  rw [if_neg (by decide : ¬ (("timer" : String) = "counter"))]
  rw [if_neg (by decide : ¬ (("timer" : String) ≠ "timer"))]
  rw [if_neg hne]
  rw [if_neg (by omega : ¬ (0 ≤ numInThreshold P m.totalHits - 1 ∧
    (numInThreshold P m.totalHits - 1).toNat < (sortedSamples m).length))]

lemma Get_of_mem_nodup {s : MetricStore} (hnodup : (s.map Prod.fst).Nodup)
    {k : String} {m : Metric} (hmem : (k, m) ∈ s) : s.Get k = some m := by
  induction s with
  | nil => simp at hmem
  | cons kv rest IH =>
    rcases List.mem_cons.mp hmem with heq | hmem2
    · rw [← heq]
      simp [MetricStore.Get]
    · have hfst : kv.1 ∉ rest.map Prod.fst := (List.nodup_cons.mp hnodup).1
      have hk : kv.1 ≠ k := by
        intro hkk
        exact hfst (hkk ▸ List.mem_map.mpr ⟨(k, m), hmem2, rfl⟩)
      simp [MetricStore.Get, hk, IH (List.nodup_cons.mp hnodup).2 hmem2]

/-!
The claims.
-/

/-- C1: Set postcondition: a `Set` on an unseen key creates a Metric with
`hitCount = 1`, `lastValue = value`, `samples = [value]` and the given
kind; a `Set` on an existing key increments `hitCount` by 1, appends the
value to samples, and updates `lastValue` per kind (gauge and timer
replace, counter adds). -/
theorem set_postcondition (s : MetricStore) (key kind : String) (v : ℚ) :
    (s.Get key = none →
      (s.Set key kind v).Get key =
        some { key := key, metricType := kind, totalHits := 1, lastValue := v,
               allValues := [v], flushTime := 0, lastFlushed := 0 }) ∧
    (∀ m, s.Get key = some m →
      (s.Set key kind v).Get key =
        some { m with
          totalHits := m.totalHits + 1,
          allValues := m.allValues ++ [v],
          lastValue :=
            if kind = "gauge" then v
            else if kind = "counter" then m.lastValue + v
            else if kind = "timer" then v
            else m.lastValue }) :=
  ⟨fun h => Set_Get_none kind v h, fun _ h => Set_Get_some kind v h⟩

/-- C1 witness: `Set("x", Counter, 3)` then `Set("x", Counter, 4)` yields
`lastValue == 7` and `hitCount == 2`. -/
theorem set_postcondition_witness :
    ((NewMetricStore.Set "x" "counter" 3).Set "x" "counter" 4).Get "x" =
      some { key := "x", metricType := "counter", totalHits := 2, lastValue := 7,
             allValues := [3, 4], flushTime := 0, lastFlushed := 0 } := by
  have h1 := (set_postcondition NewMetricStore "x" "counter" 3).1 (by decide)
  have h2 := (set_postcondition (NewMetricStore.Set "x" "counter" 3) "x" "counter" 4).2
    { key := "x", metricType := "counter", totalHits := 1, lastValue := 3,
      allValues := [3], flushTime := 0, lastFlushed := 0 } h1
  rw [h2]
  norm_num <;> decide

/-- C10: a `Set` on an existing key with a different kind argument is
applied, not rejected: `hitCount` is incremented, the value appended,
`lastValue` updated per the incoming kind (replace for gauge and timer,
add for counter), while the stored kind stays the one from creation. -/
theorem kind_mismatch_update (s : MetricStore) (key kind : String) (v : ℚ) (m : Metric)
    (hm : s.Get key = some m) (hdiff : kind ≠ m.metricType)
    (hkind : kind = "gauge" ∨ kind = "counter" ∨ kind = "timer") :
    (s.Set key kind v).Get key =
      some { m with
        totalHits := m.totalHits + 1,
        allValues := m.allValues ++ [v],
        lastValue :=
          if kind = "gauge" then v
          else if kind = "counter" then m.lastValue + v
          else v } ∧
    ((s.Set key kind v).Get key).map Metric.metricType = some m.metricType := by
  have h := Set_Get_some kind v hm
  constructor
  · rw [h]
    rcases hkind with rfl | rfl | rfl <;> norm_num
  · rw [h]
    rfl

/-- C10 witness: a key created as a counter then written as a gauge gets
its value replaced, its hit count bumped, and keeps kind "counter". -/
theorem kind_mismatch_update_witness :
    ((NewMetricStore.Set "x" "counter" 3).Set "x" "gauge" 5).Get "x" =
      some { key := "x", metricType := "counter", totalHits := 2, lastValue := 5,
             allValues := [3, 5], flushTime := 0, lastFlushed := 0 } := by
  have h := (kind_mismatch_update (NewMetricStore.Set "x" "counter" 3) "x" "gauge" 5
    { key := "x", metricType := "counter", totalHits := 1, lastValue := 3,
      allValues := [3], flushTime := 0, lastFlushed := 0 }
    (Set_Get_none "counter" 3 (by decide))
    (by decide) (Or.inl rfl)).1
  rw [h]
  norm_num <;> decide

/-- C7: in every reachable store state, every present metric satisfies
`hitCount = length samples`; established by the first `Set`, preserved by
every later `Set` and by the flush cycle. -/
theorem hitcount_samples_invariant (s : MetricStore) (hs : Reachable s)
    (key : String) (m : Metric) (hm : s.Get key = some m) :
    m.totalHits = m.allValues.length :=
  reachable_hits_len hs (key, m) (Get_some_mem hm)

/-- C7 witness at a concrete reachable store. -/
theorem hitcount_samples_invariant_witness :
    ((NewMetricStore.Set "x" "counter" 3).Set "x" "counter" 4).Get "x" =
      some { key := "x", metricType := "counter", totalHits := 2, lastValue := 7,
             allValues := [3, 4], flushTime := 0, lastFlushed := 0 } ∧
    (2 : Nat) = [(3 : ℚ), 4].length := by
  have hr : Reachable ((NewMetricStore.Set "x" "counter" 3).Set "x" "counter" 4) :=
    Reachable.step _ _ _ _ (Reachable.step _ _ _ _ Reachable.init)
  have hget : ((NewMetricStore.Set "x" "counter" 3).Set "x" "counter" 4).Get "x" =
      some { key := "x", metricType := "counter", totalHits := 2, lastValue := 7,
             allValues := [3, 4], flushTime := 0, lastFlushed := 0 } := by
    norm_num [MetricStore.Set, MetricStore.Get, NewMetricStore, Metric.zero]; decide
  exact ⟨hget, hitcount_samples_invariant _ hr "x" _ hget⟩

/-- C3 (amended): after one flush cycle every previously-written counter
or timer key is absent from the store; every previously-written gauge key
is still present with its record entirely unchanged (same `lastValue`,
and also the same `hitCount` and `samples` - the code performs no
reset). -/
theorem flush_retention (s : MetricStore) (hs : Reachable s) (key : String)
    (m : Metric) (hm : s.Get key = some m) :
    (m.metricType ≠ "gauge" → MetricStore.Get (flushCycle s) key = none) ∧
    (m.metricType = "gauge" → MetricStore.Get (flushCycle s) key = some m) := by
  obtain ⟨hkeys, hnodup⟩ := reachable_WF hs
  constructor
  · intro hng
    rw [Get_flushCycle]
    have hmem : key ∈ deletedKeys s := by
      unfold deletedKeys
      apply List.mem_map.mpr
      refine ⟨m, ?_, hkeys (key, m) (Get_some_mem hm)⟩
      apply List.mem_filter.mpr
      exact ⟨List.mem_map.mpr ⟨(key, m), Get_some_mem hm, rfl⟩, by simpa using hng⟩
    simp [List.contains, hmem]
  · intro hg
    rw [Get_flushCycle]
    have hnot : key ∉ deletedKeys s := by
      intro hmem
      unfold deletedKeys at hmem
      obtain ⟨m', hm', hkeym⟩ := List.mem_map.mp hmem
      obtain ⟨hm'snap, hng⟩ := List.mem_filter.mp hm'
      obtain ⟨kv', hkv', heq⟩ := List.mem_map.mp hm'snap
      have hk' : kv'.2.key = kv'.1 := hkeys kv' hkv'
      have hfst : kv'.1 = key := by rw [← hk', heq, hkeym]
      have hpair : (key, m') ∈ s := by
        have : kv' = (key, m') := by
          obtain ⟨a, b⟩ := kv'
          simp only [Prod.mk.injEq]
          exact ⟨hfst, heq⟩
        rw [← this]
        exact hkv'
      have : s.Get key = some m' := Get_of_mem_nodup hnodup hpair
      rw [hm] at this
      cases this
      simp [hg] at hng
    simp [List.contains, hnot, hm]

/-- C3 counterexample: a gauge written twice survives the flush with
`hitCount` still 2 and `samples` still `[10, 2]`; the claimed reset to
`hitCount = 0` and cleared samples does not happen. -/
theorem flush_retention_counterexample :
    MetricStore.Get (flushCycle ((NewMetricStore.Set "g" "gauge" 10).Set "g" "gauge" 2)) "g" =
      some { key := "g", metricType := "gauge", totalHits := 2, lastValue := 2,
             allValues := [10, 2], flushTime := 0, lastFlushed := 0 } ∧
    ¬ (MetricStore.Get (flushCycle ((NewMetricStore.Set "g" "gauge" 10).Set "g" "gauge" 2)) "g" =
      some { key := "g", metricType := "gauge", totalHits := 0, lastValue := 2,
             allValues := [], flushTime := 0, lastFlushed := 0 }) := by
  have hget : MetricStore.Get
      (flushCycle ((NewMetricStore.Set "g" "gauge" 10).Set "g" "gauge" 2)) "g" =
      some { key := "g", metricType := "gauge", totalHits := 2, lastValue := 2,
             allValues := [10, 2], flushTime := 0, lastFlushed := 0 } := by
    norm_num [MetricStore.Set, MetricStore.Get, NewMetricStore, Metric.zero, flushCycle,
      deletedKeys] <;> decide
  refine ⟨hget, ?_⟩
  rw [hget]
  intro hcontra
  cases hcontra

/-- C3 witness: the amended theorem applied to the same concrete store. -/
theorem flush_retention_witness :
    MetricStore.Get (flushCycle ((NewMetricStore.Set "g" "gauge" 10).Set "g" "gauge" 2)) "g" =
      some { key := "g", metricType := "gauge", totalHits := 2, lastValue := 2,
             allValues := [10, 2], flushTime := 0, lastFlushed := 0 } := by
  have hr : Reachable ((NewMetricStore.Set "g" "gauge" 10).Set "g" "gauge" 2) :=
    Reachable.step _ _ _ _ (Reachable.step _ _ _ _ Reachable.init)
  have hget : ((NewMetricStore.Set "g" "gauge" 10).Set "g" "gauge" 2).Get "g" =
      some { key := "g", metricType := "gauge", totalHits := 2, lastValue := 2,
             allValues := [10, 2], flushTime := 0, lastFlushed := 0 } := by
    norm_num [MetricStore.Set, MetricStore.Get, NewMetricStore, Metric.zero] <;> decide
  exact (flush_retention _ hr "g" _ hget).2 rfl

/-- C4 (amended): a line that fails the regex match (missing colon or
pipe) TERMINATES the session: `handleRequest` logs a warning and returns,
leaving the store untouched and the remaining input unprocessed. -/
theorem malformed_line_terminates (line : String) (rest : List String)
    (store : MetricStore) (hmal : matchLine line = none) :
    handleRequest (line :: rest) store = (store, rest) := by
  simp [handleRequest, hmal]

/-- C4 counterexample: after the malformed line "foo5|c" the session
ends; the following well-formed line "foo:5|c" is never processed and the
store stays empty. -/
theorem malformed_line_counterexample :
    handleRequest ["foo5|c", "foo:5|c"] NewMetricStore = (NewMetricStore, ["foo:5|c"]) ∧
    (handleRequest ["foo5|c", "foo:5|c"] NewMetricStore).1.Get "foo" = none := by
  constructor
  · decide
  · decide

/-- C4 witness: the amended behaviour at the concrete malformed line. -/
theorem malformed_line_terminates_witness :
    handleRequest ["foo5|c", "bar:1|c"] NewMetricStore = (NewMetricStore, ["bar:1|c"]) :=
  malformed_line_terminates "foo5|c" ["bar:1|c"] NewMetricStore (by decide)

/-- C5 (amended): a line whose three-part shape matches and whose type
token is known but whose value portion cannot be parsed as a float is NOT
skipped: the parse error is ignored (`checkError` with `panicOnError =
false` does nothing) and `Set` is called with Go's zero parse result 0. -/
theorem invalid_value_still_sets (line : String) (rest : List String)
    (store : MetricStore) (name val ty longTy : String)
    (hm : matchLine line = some (name, val, ty))
    (hty : shortTypeToLong (trimTypeToken ty) = some longTy)
    (hv : parseFloat val = none) :
    handleRequest (line :: rest) store =
      handleRequest rest (store.Set name longTy 0) := by
  simp [handleRequest, hm, hty, hv]

/-- C5 counterexample: the line "foo:abc|c" has an unparseable value, yet
a metric is created for "foo" with value 0 - the store is not left
unchanged. -/
theorem invalid_value_counterexample :
    (handleRequest ["foo:abc|c"] NewMetricStore).1.Get "foo" =
      some { key := "foo", metricType := "counter", totalHits := 1, lastValue := 0,
             allValues := [0], flushTime := 0, lastFlushed := 0 } ∧
    (handleRequest ["foo:abc|c"] NewMetricStore).1 ≠ NewMetricStore := by
  have hstep : handleRequest ["foo:abc|c"] NewMetricStore =
      handleRequest [] (NewMetricStore.Set "foo" "counter" 0) := by
    simp [handleRequest, (by decide : matchLine "foo:abc|c" = some ("foo", "abc", "c")),
      (by decide : shortTypeToLong (trimTypeToken "c") = some "counter"),
      (by decide : parseFloat "abc" = none)]
  rw [hstep]
  constructor
  · norm_num [handleRequest, MetricStore.Set, MetricStore.Get, NewMetricStore,
      Metric.zero] <;> decide
  · norm_num [handleRequest, MetricStore.Set, MetricStore.Get, NewMetricStore,
      Metric.zero] <;> decide

/-- C5 witness: the amended behaviour at the concrete line "foo:abc|c". -/
theorem invalid_value_still_sets_witness :
    handleRequest ["foo:abc|c"] NewMetricStore =
      handleRequest [] (NewMetricStore.Set "foo" "counter" 0) :=
  invalid_value_still_sets "foo:abc|c" [] NewMetricStore "foo" "abc" "c" "counter"
    (by decide) (by decide) (by decide)

/-- C8 (amended): a flushed gauge yields exactly TWO points: the
`stats.gauges.<name>.avg_value` point and the unconditional generic
`<name> = lastValue` point (line 302 runs for every metric type). -/
theorem gauge_export_points (P : Int) (fs : ℚ) (m : Metric)
    (h : m.metricType = "gauge") :
    sendToGraphite P fs m =
      ([{ key := "stats.gauges." ++ m.key ++ ".avg_value", value := m.lastValue,
          time := m.flushTime },
        { key := m.key, value := m.lastValue, time := m.flushTime }], true) := by
  simp only [sendToGraphite, h]
  rw [if_pos (by decide : ("gauge" : String) ≠ "timer")]
  simp


/-- C8 counterexample: a concrete gauge metric produces two points, not
exactly one. -/
theorem gauge_export_counterexample :
    (sendToGraphite 90 10 exGauge).1 =
      [{ key := "stats.gauges.g.avg_value", value := 7, time := 0 },
       { key := "g", value := 7, time := 0 }] ∧
    (sendToGraphite 90 10 exGauge).1.length ≠ 1 := by
  have hpts : (sendToGraphite 90 10 exGauge).1 =
      [{ key := "stats.gauges.g.avg_value", value := 7, time := 0 },
       { key := "g", value := 7, time := 0 }] := by
    norm_num [sendToGraphite, exGauge] <;> decide
  exact ⟨hpts, by rw [hpts]; decide⟩

/-- C8 witness: the amended theorem at the same concrete gauge. -/
theorem gauge_export_points_witness :
    sendToGraphite 90 10 exGauge =
      ([{ key := "stats.gauges.g.avg_value", value := 7, time := 0 },
        { key := "g", value := 7, time := 0 }], true) := by
  have h := gauge_export_points 90 10 exGauge rfl
  rw [h]
  norm_num [exGauge] <;> decide

/-- C6 (amended): `numInThreshold` is NOT clamped by the code; it lies in
`[1, hitCount]` - making both slice accesses in bounds - whenever
`50 < percentile * hitCount` (so always for the default percentile 90
with at least one sample, and for P = 100), but NOT for P = 0, where
`numInThreshold = 0` and the access `samples[numInThreshold-1]`
panics. -/
theorem percentile_window_inbounds (P : Int) (n : Nat) (h100 : P ≤ 100)
    (h50 : 50 < P * (n : Int)) :
    1 ≤ numInThreshold P n ∧ numInThreshold P n ≤ (n : Int) :=
  numInThreshold_bounds P n h100 h50

/-- C6 counterexample: at percentile 0 with one sample the unclamped
`numInThreshold` is 0 (not ≥ 1 as the claim states), and the export of
the timer panics (flag `false`) instead of emitting percentile points. -/
theorem percentile_window_counterexample :
    numInThreshold 0 1 = 0 ∧ (sendToGraphite 0 10 exTimer1).2 = false := by
  constructor
  · norm_num [numInThreshold, thresholdIndex]
  · apply sendToGraphite_timer_outOfRange
    · rfl
    · decide
    · norm_num [exTimer1, numInThreshold, thresholdIndex]

/-- C6 witness: for the default percentile 90 and five samples the index
is in bounds. -/
theorem percentile_window_inbounds_witness :
    1 ≤ numInThreshold 90 5 ∧ numInThreshold 90 5 ≤ (5 : Int) :=
  percentile_window_inbounds 90 5 (by decide) (by decide)

/-- C2: Timer statistics.  For a timer metric with non-empty samples
(and a percentile P with `50 < P * hitCount`, under which the unclamped
index of line 339 is in bounds - cf. the C6 analysis), the engine sorts
the samples ascending and emits, in order: the generic `<name>` point,
`avg_value = (sum of samples)/hitCount`, `max_value` = largest sample,
`min_value` = smallest sample, `mean_P = cum[numInThreshold-1] /
numInThreshold`, `upper_P = sorted[numInThreshold-1]` and
`sum_P = cum[numInThreshold-1]`, where `cum[i]` is the sum of the first
`i+1` sorted samples. -/
theorem timer_statistics (P : Int) (fs : ℚ) (m : Metric)
    (hty : m.metricType = "timer") (hne : m.allValues ≠ [])
    (hhc : m.totalHits = m.allValues.length)
    (h100 : P ≤ 100) (h50 : 50 < P * (m.totalHits : Int)) :
    sendToGraphite P fs m =
      ([{ key := m.key, value := m.lastValue, time := m.flushTime },
        { key := "stats.timers." ++ m.key ++ ".avg_value",
          value := (sortedSamples m).sum / (m.totalHits : ℚ), time := m.flushTime },
        { key := "stats.timers." ++ m.key ++ ".max_value",
          value := (sortedSamples m).getLastD 0, time := m.flushTime },
        { key := "stats.timers." ++ m.key ++ ".min_value",
          value := (sortedSamples m).headD 0, time := m.flushTime },
        { key := "stats.timers." ++ m.key ++ ".mean_" ++ toString P,
          value := (cumulativeValues (sortedSamples m)).getD
              (numInThreshold P m.totalHits - 1).toNat 0 /
            ((numInThreshold P m.totalHits : Int) : ℚ), time := m.flushTime },
        { key := "stats.timers." ++ m.key ++ ".upper_" ++ toString P,
          value := (sortedSamples m).getD (numInThreshold P m.totalHits - 1).toNat 0,
          time := m.flushTime },
        { key := "stats.timers." ++ m.key ++ ".sum_" ++ toString P,
          value := (cumulativeValues (sortedSamples m)).getD
              (numInThreshold P m.totalHits - 1).toNat 0, time := m.flushTime }], true) ∧
    (sortedSamples m).sum = m.allValues.sum ∧
    ((sortedSamples m).headD 0 ∈ m.allValues ∧
      ∀ x ∈ m.allValues, (sortedSamples m).headD 0 ≤ x) ∧
    ((sortedSamples m).getLastD 0 ∈ m.allValues ∧
      ∀ x ∈ m.allValues, x ≤ (sortedSamples m).getLastD 0) ∧
    (cumulativeValues (sortedSamples m)).getD (numInThreshold P m.totalHits - 1).toNat 0 =
      ((sortedSamples m).take (numInThreshold P m.totalHits).toNat).sum := by
  obtain ⟨hn1, hn2⟩ := numInThreshold_bounds P m.totalHits h100 h50
  have hlen : (sortedSamples m).length = m.allValues.length := sortedSamples_length m
  have hlenne : (sortedSamples m).length ≠ 0 := by
    rw [hlen]
    exact fun h0 => hne (List.eq_nil_of_length_eq_zero h0)
  have hsne : sortedSamples m ≠ [] := fun h0 => hlenne (by rw [h0]; rfl)
  have hidx : (numInThreshold P m.totalHits - 1).toNat < (sortedSamples m).length := by
    rw [hlen, ← hhc]
    omega
  refine ⟨sendToGraphite_timer P fs m hty hlenne hn1 hidx, sortedSamples_sum m, ?_, ?_, ?_⟩
  · constructor
    · exact (sortedSamples_perm m).subset (headD_mem hsne)
    · intro x hx
      exact headD_le_of_sorted (sortedSamples_sorted m) x
        ((sortedSamples_perm m).symm.subset hx)
  · constructor
    · exact (sortedSamples_perm m).subset (getLastD_mem hsne)
    · intro x hx
      exact le_getLastD_of_sorted (sortedSamples_sorted m) x
        ((sortedSamples_perm m).symm.subset hx)
  · rw [cumulativeValues_getD _ _ hidx]
    have : (numInThreshold P m.totalHits - 1).toNat + 1 =
        (numInThreshold P m.totalHits).toNat := by omega
    rw [this]

/-- C2 witness: samples `[1,2,3,4,5]`, percentile 90: avg 3, min 1,
max 5, numInThreshold 4, upper 4, mean 5/2, sum-at-percentile 10. -/
theorem timer_statistics_witness :
    sendToGraphite 90 10 exTimer =
      ([{ key := "t", value := 5, time := 0 },
        { key := "stats.timers.t.avg_value", value := 3, time := 0 },
        { key := "stats.timers.t.max_value", value := 5, time := 0 },
        { key := "stats.timers.t.min_value", value := 1, time := 0 },
        { key := "stats.timers.t.mean_90", value := 5 / 2, time := 0 },
        { key := "stats.timers.t.upper_90", value := 4, time := 0 },
        { key := "stats.timers.t.sum_90", value := 10, time := 0 }], true) := by
  have h := (timer_statistics 90 10 exTimer rfl (by decide) rfl (by decide) (by decide)).1
  rw [h]
  have hnit : numInThreshold 90 exTimer.totalHits = 4 := by
    norm_num [exTimer, numInThreshold, thresholdIndex]
  rw [hnit]
  have hs : sortedSamples exTimer = [(1 : ℚ), 2, 3, 4, 5] := rfl
  rw [hs]
  have hcum : cumulativeValues [(1 : ℚ), 2, 3, 4, 5] = [1, 3, 6, 10, 15] := by
    norm_num [cumulativeValues, cumulativeFrom]
  rw [hcum]
  have h3 : ((4 : Int) - 1).toNat = 3 := rfl
  rw [h3]
  have hg1 : ([(1 : ℚ), 3, 6, 10, 15]).getD 3 0 = 10 := rfl
  have hg2 : ([(1 : ℚ), 2, 3, 4, 5]).getD 3 0 = 4 := rfl
  rw [hg1, hg2]
  norm_num [exTimer]
  all_goals decide
